import Mathlib

/-!
Verification of the FreeType WPM typing-session tracker
(`src/src/App.tsx`) against its natural-language specification.

The component state (React `useState` cells) is embedded as the record
`SessionState`; each event handler / effect of the component becomes a
function from state (plus an explicit `now : Int` timestamp, replacing
`Date.now()`) to state.  Timestamps and millisecond counts are `Int`
(JavaScript number arithmetic on `Date.now()` values is exact integer
arithmetic); derived statistics are ℚ (JavaScript float division is
modelled by exact rational division; `Number.isFinite` guards are
identically true on ℚ and noted where they occur).

JavaScript truthiness is modelled faithfully where the source relies on
it: `lastStart` is a `number | null` tested with `if (lastStart)` and
`isRunning && lastStart`, which is false both for `null` and for the
number `0`.
-/

namespace FreeTypeWpm

/-- The reactive state cells of `TypingSpeedApp` (App.tsx lines 20-34):
`text`, `isRunning`, `startedAt`, `lastStart`, `accumulatedMs`,
`totalKeystrokes`, `backspaces`, and the timer configuration
`timerMinutes` (0 = off).  The render-cache cell `now` is replaced by
explicit time parameters. -/
structure SessionState where
  text : String
  isRunning : Bool
  startedAt : Option Int
  lastStart : Option Int
  accumulatedMs : Int
  totalKeystrokes : Nat
  backspaces : Nat
  timerMinutes : Nat
  deriving Repr, DecidableEq

/-- The initial state at widget mount. -/
def initState : SessionState :=
  { text := "", isRunning := false, startedAt := none, lastStart := none,
    accumulatedMs := 0, totalKeystrokes := 0, backspaces := 0, timerMinutes := 0 }

/-- JavaScript truthiness of a `number | null` value: `null` and `0` are falsy. -/
def optTruthy : Option Int → Bool
  | none => false
  | some t => t != 0

/-- `timerMs = timerMinutes * 60000` (App.tsx line 34). -/
def timerMs (s : SessionState) : Int := (s.timerMinutes : Int) * 60000

/-- `timerEnabled = timerMinutes > 0` (App.tsx line 33). -/
def timerEnabled (s : SessionState) : Bool := s.timerMinutes > 0

/-- `activeElapsedMs` (App.tsx lines 45-48):
`runningMs = isRunning && lastStart ? now - lastStart : 0`;
result `accumulatedMs + runningMs`. -/
def activeElapsedMs (s : SessionState) (now : Int) : Int :=
  let runningMs : Int :=
    if s.isRunning && optTruthy s.lastStart then
      now - s.lastStart.getD 0
    else 0
  s.accumulatedMs + runningMs

/-- `startIfNeeded` (App.tsx lines 78-85): sets `startedAt` on first call
only; if not running, sets `isRunning := true` and `lastStart := ts`. -/
def startIfNeeded (s : SessionState) (ts : Int) : SessionState :=
  let s1 := if s.startedAt = none then { s with startedAt := some ts } else s
  if !s1.isRunning then { s1 with isRunning := true, lastStart := some ts } else s1

/-- `handleChange` (App.tsx lines 87-90): if the new value is non-empty,
call `startIfNeeded`; then store the new text. -/
def handleChange (s : SessionState) (ts : Int) (newText : String) : SessionState :=
  let s1 := if newText.length > 0 then startIfNeeded s ts else s
  { s1 with text := newText }

/-- `handleKeyDown` (App.tsx lines 92-100): `isPrintable` is
`key.length === 1 || key === "Enter" || key === "Tab" || key === " " ||
key === "Spacebar"`; printable increments `totalKeystrokes`; `Backspace`
increments both `backspaces` and `totalKeystrokes`. -/
def handleKeyDown (s : SessionState) (key : String) : SessionState :=
  let isPrintable : Bool :=
    key.length == 1 || key == "Enter" || key == "Tab" || key == " " || key == "Spacebar"
  let s1 := if isPrintable then { s with totalKeystrokes := s.totalKeystrokes + 1 } else s
  if key == "Backspace" then
    { s1 with backspaces := s1.backspaces + 1, totalKeystrokes := s1.totalKeystrokes + 1 }
  else s1

/-- `pauseResume` (App.tsx lines 102-113).  When running: accumulate
`ts - lastStart` (guarded by JS truthiness `if (lastStart)`), stop, clear
`lastStart`.  When paused: start running from `ts`, setting `startedAt`
if it was never set. -/
def pauseResume (s : SessionState) (ts : Int) : SessionState :=
  if s.isRunning then
    let s1 :=
      if optTruthy s.lastStart then
        { s with accumulatedMs := s.accumulatedMs + (ts - s.lastStart.getD 0) }
      else s
    { s1 with isRunning := false, lastStart := none }
  else
    let s1 := { s with isRunning := true, lastStart := some ts }
    if s.startedAt = none then { s1 with startedAt := some ts } else s1

/-- The spec operation `pause()`: the running branch of `pauseResume`,
a no-op when already paused. -/
def pauseOp (s : SessionState) (ts : Int) : SessionState :=
  if s.isRunning then pauseResume s ts else s

/-- `resetAll` (App.tsx lines 115-125): clears the session cells; does
not touch `timerMinutes`. -/
def resetAll (s : SessionState) : SessionState :=
  { s with text := "", isRunning := false, startedAt := none, lastStart := none,
           accumulatedMs := 0, totalKeystrokes := 0, backspaces := 0 }

/-- `setTimerMinutes` (App.tsx line 180): replaces the timer configuration. -/
def setTimerMinutesOp (s : SessionState) (n : Nat) : SessionState :=
  { s with timerMinutes := n }

/-- The timer-expiry effect (App.tsx lines 51-59): if the timer is
enabled, the session is running, and `activeElapsedMs >= timerMs`
(with `timerMs > 0`), set `isRunning := false` and `lastStart := null`.
Note: the source does NOT add the running interval to `accumulatedMs`
here. -/
def checkTimerExpiry (s : SessionState) (now : Int) : SessionState :=
  if !timerEnabled s then s
  else if !s.isRunning then s
  else if activeElapsedMs s now ≥ timerMs s && timerMs s > 0 then
    { s with isRunning := false, lastStart := none }
  else s

/-- JavaScript whitespace (the character class `\s` of the split regex,
also the characters removed by `String.prototype.trim`): ASCII
whitespace, NBSP, the Unicode space separators, line/paragraph
separators, and the BOM. -/
def isJsWs (c : Char) : Bool :=
  c == ' ' || c == '\t' || c == '\n' || c == '\r' ||
  c == '\x0b' || c == '\x0c' || c == '\u00A0' || c == '\u1680' ||
  ('\u2000' ≤ c && c ≤ '\u200A') || c == '\u2028' || c == '\u2029' ||
  c == '\u202F' || c == '\u205F' || c == '\u3000' || c == '\uFEFF'

/-- `text.trim()`: remove trailing then leading JavaScript whitespace. -/
def jsTrim (l : List Char) : List Char :=
  ((l.reverse.dropWhile isJsWs).reverse).dropWhile isJsWs

/-- The splitter of `text.trim().split(/\s+/)`: `acc` is the reversed
current token, `prevWs` records whether the previous character belonged
to a whitespace run whose boundary was already emitted (the regex `\s+`
matches maximal whitespace runs). -/
def jsSplitWsAux : List Char → List Char → Bool → List (List Char)
  | [], acc, _ => [acc.reverse]
  | c :: cs, acc, false =>
    if isJsWs c then acc.reverse :: jsSplitWsAux cs [] true
    else jsSplitWsAux cs (c :: acc) false
  | c :: cs, acc, true =>
    if isJsWs c then jsSplitWsAux cs acc true
    else jsSplitWsAux cs (c :: acc) false

/-- `str.split(/\s+/)` as a list of tokens (JavaScript semantics:
an empty leading/trailing token when the string starts/ends with
whitespace, and `"".split(/\s+/) = [""]`). -/
def jsSplitWs (l : List Char) : List (List Char) := jsSplitWsAux l [] false

/-- `words` of the `stats` memo (App.tsx line 65):
`text.trim() ? text.trim().split(/\s+/).length : 0` (the empty string is
falsy). -/
def wordsOf (text : String) : Nat :=
  let t := jsTrim text.data
  if t = [] then 0 else (jsSplitWs t).length

/-- The derived statistics record returned by the `stats` memo
(App.tsx lines 63-76). -/
structure Stats where
  chars : Nat
  words : Nat
  wpmGross : ℚ
  netWpm : ℚ
  accuracy : ℚ
  deriving Repr, DecidableEq

/-- The `stats` memo (App.tsx lines 63-76) together with
`elapsedMinutes = activeElapsedMs / 60000` (line 61).  The
`Number.isFinite` coercions on `wpmGross` and `netWpm` are identically
true over ℚ (rational arithmetic never produces NaN/Infinity here: the
divisions are guarded by `elapsedMinutes > 0` and `totalKeystrokes > 0`).
Note that `netWpm` is computed from the raw `accuracy` value, while the
returned `accuracy` field is clamped to [0, 100] afterwards. -/
def stats (s : SessionState) (now : Int) : Stats :=
  let chars : Nat := s.text.length
  let words : Nat := wordsOf s.text
  let elapsedMinutes : ℚ := (activeElapsedMs s now : ℚ) / 60000
  let wpmGross : ℚ := if elapsedMinutes > 0 then ((chars : ℚ) / 5) / elapsedMinutes else 0
  let accuracy : ℚ :=
    if s.totalKeystrokes > 0 then ((chars : ℚ) / (s.totalKeystrokes : ℚ)) * 100 else 100
  let netWpm : ℚ := wpmGross * (accuracy / 100)
  { chars := chars, words := words, wpmGross := wpmGross, netWpm := netWpm,
    accuracy := max 0 (min 100 accuracy) }

/-- `Math.round(x)`: round half toward positive infinity. -/
def jsRound (q : ℚ) : Int := Int.floor (q + 1 / 2)

/-- `Number(x.toFixed(2))`: the value of `x` rounded to 2 decimal
places (ECMA `toFixed` picks the larger candidate on ties, i.e. rounds
half up). -/
def toFixed2 (q : ℚ) : ℚ := (jsRound (q * 100) : ℚ) / 100

/-- How JavaScript prints the number `m / 100` (for `m ≥ 0`): trailing
zeros of the fractional part are dropped, integers print with no point.
This models `String(Number(x.toFixed(2)))` as performed by
`Object.values(row).join(",")`. -/
def renderHundredths (m : Int) : String :=
  if m % 100 = 0 then toString (m / 100)
  else if m % 10 = 0 then toString (m / 100) ++ "." ++ toString (m % 100 / 10)
  else if m % 100 < 10 then toString (m / 100) ++ ".0" ++ toString (m % 100)
  else toString (m / 100) ++ "." ++ toString (m % 100)

/-- The CSV header of `downloadReport` (App.tsx line 146):
`Object.keys(row).join(",")`. -/
def reportHeader : String :=
  "date,duration_seconds,characters,words,wpm_gross,wpm_net,accuracy_percent,keystrokes,backspaces,timer_minutes"

/-- The data line of `downloadReport` (App.tsx lines 134-147):
`Object.values(row).join(",")` with the fields of `row` in declaration
order. -/
def reportValues (s : SessionState) (now : Int) (date : String) : String :=
  let st := stats s now
  let durationSeconds : Int := jsRound ((activeElapsedMs s now : ℚ) / 1000)
  date ++ "," ++ toString durationSeconds ++ "," ++ toString st.chars ++ "," ++
    toString st.words ++ "," ++ renderHundredths (jsRound (st.wpmGross * 100)) ++ "," ++
    renderHundredths (jsRound (st.netWpm * 100)) ++ "," ++
    renderHundredths (jsRound (st.accuracy * 100)) ++ "," ++
    toString s.totalKeystrokes ++ "," ++ toString s.backspaces ++ "," ++
    toString s.timerMinutes

/-- The CSV text assembled by `downloadReport` (App.tsx line 148):
`headers + "\\n" + values + "\\n"`.  The source writes the two-character
escape `"\\n"` (a backslash followed by the letter n), not a newline;
the Lean string below reproduces those exact characters. -/
def buildReport (s : SessionState) (now : Int) (date : String) : String :=
  reportHeader ++ "\\n" ++ reportValues s now date ++ "\\n"

/-- One public operation of the tracker, tagged with the `Date.now()`
value the handler would observe. -/
inductive Op where
  | textChanged (ts : Int) (newText : String)
  | keyEvent (key : String)
  | start (ts : Int)
  | pause (ts : Int)
  | toggleRunning (ts : Int)
  | reset
  | setTimerMinutes (n : Nat)
  | checkExpiry (ts : Int)
  deriving Repr, DecidableEq

/-- Dispatch of one operation to the corresponding handler. -/
def applyOp : Op → SessionState → SessionState
  | .textChanged ts nt, s => handleChange s ts nt
  | .keyEvent k, s => handleKeyDown s k
  | .start ts, s => startIfNeeded s ts
  | .pause ts, s => pauseOp s ts
  | .toggleRunning ts, s => pauseResume s ts
  | .reset, s => resetAll s
  | .setTimerMinutes n, s => setTimerMinutesOp s n
  | .checkExpiry ts, s => checkTimerExpiry s ts

/-- The timestamp an operation carries, when it has one. -/
def opTime : Op → Option Int
  | .textChanged ts _ => some ts
  | .keyEvent _ => none
  | .start ts => some ts
  | .pause ts => some ts
  | .toggleRunning ts => some ts
  | .reset => none
  | .setTimerMinutes _ => none
  | .checkExpiry ts => some ts

/-- States reachable from the mount state by public operations. -/
inductive Reachable : SessionState → Prop where
  | init : Reachable initState
  | step : ∀ {s : SessionState} (op : Op), Reachable s → Reachable (applyOp op s)

/-- Spec-side token counter: the number of maximal runs of
non-whitespace characters ("whitespace-delimited tokens").  The flag
records whether we are inside a token that has already been counted. -/
def countTokensAux : List Char → Bool → Nat
  | [], _ => 0
  | c :: cs, false =>
    if isJsWs c then countTokensAux cs false
    else 1 + countTokensAux cs true
  | c :: cs, true =>
    if isJsWs c then countTokensAux cs false
    else countTokensAux cs true

/-- Spec-side word count: number of whitespace-delimited tokens. -/
def countTokens (l : List Char) : Nat := countTokensAux l false

/-- Spec-side key classification (amended: the legacy key string
`"Spacebar"` is also printable, as the source treats it). -/
inductive KeyClass where
  | printable
  | backspace
  | other
  deriving Repr, DecidableEq

/-- Classify a key string: `Backspace`; else printable when it is a
single character or one of `Enter`, `Tab`, `" "`, `"Spacebar"`; else
other. -/
def classifyKey (key : String) : KeyClass :=
  if key = "Backspace" then .backspace
  else if key.length = 1 ∨ key = "Enter" ∨ key = "Tab" ∨ key = " " ∨ key = "Spacebar" then
    .printable
  else .other

/-- Spec-side raw (unclamped) accuracy:
`totalKeystrokes > 0 ? characterCount/totalKeystrokes*100 : 100`. -/
def rawAccuracy (s : SessionState) : ℚ :=
  if s.totalKeystrokes > 0 then
    ((s.text.length : ℚ) / (s.totalKeystrokes : ℚ)) * 100
  else 100

/-- No trailing whitespace: the last character, if any, is not
JavaScript whitespace. -/
def noTrailWs (l : List Char) : Prop :=
  ∀ c, l.getLast? = some c → isJsWs c = false

/-- Does an operation write `accumulatedMs` anywhere in its handler?
Only `pauseResume` (reached via `pause` and `toggleRunning`) and
`resetAll` assign it; the timer-expiry effect does not. -/
def writesAccumulated : Op → Bool
  | .pause _ => true
  | .toggleRunning _ => true
  | .reset => true
  | _ => false

/-- A session that ran from t=1 with a 1-minute timer: at t=60001 the
timer has just expired. -/
def expiredDemo : SessionState :=
  { text := "x", isRunning := true, startedAt := some 1, lastStart := some 1,
    accumulatedMs := 0, totalKeystrokes := 1, backspaces := 0, timerMinutes := 1 }

/-- A finished session: 10 characters in one active minute from only 5
counted keystrokes (paste or IME input), so the raw accuracy ratio is
200%. -/
def overAccurateDemo : SessionState :=
  { text := "aaaaaaaaaa", isRunning := false, startedAt := some 1, lastStart := none,
    accumulatedMs := 60000, totalKeystrokes := 5, backspaces := 0, timerMinutes := 0 }

/-- A paused session with non-empty text: typing started at t=10
(via the text-change handler) and the user paused at t=20. -/
def pausedDemo : SessionState :=
  pauseResume (handleChange initState 10 "ab") 20

/-- A session that accumulated 5 ms of active time (started at t=10,
paused at t=15). -/
def accumulatedDemo : SessionState :=
  pauseResume (startIfNeeded initState 10) 15

/-- A running session: started at t=3 with 7 ms already accumulated from
an earlier interval. -/
def runningDemo : SessionState :=
  { initState with isRunning := true, startedAt := some 3, lastStart := some 3,
                   accumulatedMs := 7 }

/-! ## Theorems -/

/-- C1: the spec requires `checkTimerExpiry` to have the same effect as
`pause()` — in particular to add `now - lastResumeAt` to
`accumulatedActiveMs` — but the timer-expiry effect in the source only
stops the session.  At the failing input (running since t=1 with a
1-minute timer, checked at t=60001, 60000 ms of active time) the code
leaves `accumulatedMs` at 0, discarding the whole running interval,
whereas `pauseResume` at the same instant yields 60000; the session does
stop, and a second expiry check is a no-op. -/
theorem checkTimerExpiry_drops_running_interval :
    activeElapsedMs expiredDemo 60001 = 60000 ∧
    timerMs expiredDemo = 60000 ∧
    (checkTimerExpiry expiredDemo 60001).isRunning = false ∧
    (checkTimerExpiry expiredDemo 60001).lastStart = none ∧
    (checkTimerExpiry expiredDemo 60001).accumulatedMs = 0 ∧
    (pauseResume expiredDemo 60001).accumulatedMs = 60000 ∧
    checkTimerExpiry (checkTimerExpiry expiredDemo 60001) 61000 =
      checkTimerExpiry expiredDemo 60001 := by
  decide

/-- The derived statistics of `overAccurateDemo`: one active minute,
10 characters, 5 keystrokes — so the raw accuracy ratio is 200% and the
net WPM doubles the gross WPM. -/
theorem stats_overAccurateDemo_eq : stats overAccurateDemo 0 =
    { chars := 10, words := 1, wpmGross := 2, netWpm := 4, accuracy := 100 } := by
  have h1 : activeElapsedMs overAccurateDemo 0 = 60000 := by decide
  have h2 : overAccurateDemo.text.length = 10 := rfl
  have h3 : overAccurateDemo.totalKeystrokes = 5 := rfl
  have h4 : wordsOf overAccurateDemo.text = 1 := by decide
  simp only [stats, h1, h2, h3, h4]
  norm_num [Stats.mk.injEq]

/-- C2 counterexample: with 10 characters, 5 keystrokes and one active
minute, the code returns `netWpm = 4` while the claim's formula
`grossWpm * accuracyPercent/100` (with the clamped accuracy the `stats`
record surfaces) gives `2`; `netWpm` strictly exceeds `grossWpm`. -/
theorem netWpm_uses_unclamped_accuracy :
    (stats overAccurateDemo 0).netWpm ≠
      (stats overAccurateDemo 0).wpmGross * ((stats overAccurateDemo 0).accuracy / 100) ∧
    (stats overAccurateDemo 0).wpmGross = 2 ∧
    (stats overAccurateDemo 0).netWpm = 4 ∧
    (stats overAccurateDemo 0).accuracy = 100 := by
  rw [stats_overAccurateDemo_eq]
  norm_num

/-- C3 counterexample: in a paused session whose text is already the
non-empty `"ab"`, a text change to `"abc"` does not only replace the
text — it resumes the session (`handleChange` calls `startIfNeeded`
whenever the new value is non-empty). -/
theorem handleChange_resumes_paused_session :
    pausedDemo.isRunning = false ∧
    pausedDemo.text = "ab" ∧
    (handleChange pausedDemo 30 "abc").isRunning = true ∧
    (handleChange pausedDemo 30 "abc").lastStart = some 30 := by
  decide

/-- C4: the spec requires a CSV whose first row is the header and whose
second row is the data, but the source joins them with the two-character
sequence backslash-n (the TypeScript literal is `"\\n"`, not `"\n"`), so
the whole artifact is a single line containing no newline character at
all.  Evaluated at a concrete finished session. -/
theorem buildReport_has_no_newline :
    buildReport overAccurateDemo 0 "1970-01-01T00:00:00.000Z" =
      "date,duration_seconds,characters,words,wpm_gross,wpm_net,accuracy_percent,keystrokes,backspaces,timer_minutes\\n1970-01-01T00:00:00.000Z,60,10,1,2,4,100,5,0,0\\n" ∧
    ((buildReport overAccurateDemo 0 "1970-01-01T00:00:00.000Z").data.all
      (fun c => c ≠ '\n')) = true := by
  have h1 : activeElapsedMs overAccurateDemo 0 = 60000 := by decide
  have hd : jsRound (((60000 : Int) : ℚ) / 1000) = 60 := by norm_num [jsRound]
  have hg : jsRound ((2 : ℚ) * 100) = 200 := by norm_num [jsRound]
  have hn : jsRound ((4 : ℚ) * 100) = 400 := by norm_num [jsRound]
  have ha : jsRound ((100 : ℚ) * 100) = 10000 := by norm_num [jsRound]
  have hb : buildReport overAccurateDemo 0 "1970-01-01T00:00:00.000Z" =
      "date,duration_seconds,characters,words,wpm_gross,wpm_net,accuracy_percent,keystrokes,backspaces,timer_minutes\\n1970-01-01T00:00:00.000Z,60,10,1,2,4,100,5,0,0\\n" := by
    simp only [buildReport, reportValues, reportHeader, stats_overAccurateDemo_eq,
      h1, hd, hg, hn, ha]
    rfl
  exact ⟨hb, by rw [hb]; decide⟩

/-- C5 counterexample: after accumulating 5 ms of active time, `reset`
drops `accumulatedActiveMs` from 5 to 0 — a strict decrease, refuting
monotone non-decrease over sequences that contain a reset. -/
theorem reset_decreases_accumulated :
    accumulatedDemo.accumulatedMs = 5 ∧
    (applyOp Op.reset accumulatedDemo).accumulatedMs < accumulatedDemo.accumulatedMs := by
  decide

/-- C6 counterexample: the claim lists `"Spacebar"` among the keys with
no effect, but the source classifies it as printable and increments
`totalKeystrokes`. -/
theorem spacebar_increments_keystrokes :
    initState.totalKeystrokes = 0 ∧
    (handleKeyDown initState "Spacebar").totalKeystrokes = 1 ∧
    handleKeyDown initState "Spacebar" ≠ initState := by
  decide

/-- C2 (amended): `netWpm = grossWpm * rawAccuracy/100` where
`rawAccuracy` is the unclamped ratio `characterCount/totalKeystrokes*100`
(100 when there are no keystrokes); consequently, whenever
`characterCount > totalKeystrokes > 0` and the gross WPM is positive,
the net WPM strictly exceeds the gross WPM. -/
theorem netWpm_eq_gross_times_rawAccuracy (s : SessionState) (now : Int) :
    (stats s now).netWpm = (stats s now).wpmGross * (rawAccuracy s / 100) ∧
    (s.totalKeystrokes < s.text.length → 0 < s.totalKeystrokes →
      0 < (stats s now).wpmGross → (stats s now).wpmGross < (stats s now).netWpm) := by
  have heq : (stats s now).netWpm = (stats s now).wpmGross * (rawAccuracy s / 100) := rfl
  refine ⟨heq, ?_⟩
  intro h1 h2 h3
  have hks : (0 : ℚ) < (s.totalKeystrokes : ℚ) := by exact_mod_cast h2
  have hraw : rawAccuracy s = ((s.text.length : ℚ) / (s.totalKeystrokes : ℚ)) * 100 := by
    simp [rawAccuracy, h2]
  have hgt1 : (1 : ℚ) < (s.text.length : ℚ) / (s.totalKeystrokes : ℚ) := by
    rw [one_lt_div hks]
    exact_mod_cast h1
  rw [heq, hraw, mul_div_assoc]
  norm_num
  exact (lt_mul_iff_one_lt_right h3).mpr hgt1

/-- C2 witness: at the concrete over-accurate session the amended
theorem's inequality is realised — net WPM exceeds gross WPM. -/
theorem netWpm_eq_gross_times_rawAccuracy_witness :
    (stats overAccurateDemo 0).wpmGross < (stats overAccurateDemo 0).netWpm :=
  (netWpm_eq_gross_times_rawAccuracy overAccurateDemo 0).2 (by decide) (by decide)
    (by rw [stats_overAccurateDemo_eq]; norm_num)

/-- C3 (amended): `handleChange` replaces the stored text and triggers
`startIfNeeded` exactly when the new text is non-empty — regardless of
the previous text, so typing while paused resumes the session; when the
new text is empty only the text field changes. -/
theorem handleChange_starts_iff_nonempty (s : SessionState) (ts : Int) (newText : String) :
    handleChange s ts newText =
      if newText.length > 0 then { startIfNeeded s ts with text := newText }
      else { s with text := newText } := by
  unfold handleChange
  by_cases h : newText.length > 0
  · simp [h]
  · simp [h]

/-- `startIfNeeded` never writes `accumulatedMs`. -/
theorem startIfNeeded_accumulated (s : SessionState) (ts : Int) :
    (startIfNeeded s ts).accumulatedMs = s.accumulatedMs := by
  simp only [startIfNeeded]
  split_ifs <;> rfl

/-- `handleChange` never writes `accumulatedMs`. -/
theorem handleChange_accumulated (s : SessionState) (ts : Int) (nt : String) :
    (handleChange s ts nt).accumulatedMs = s.accumulatedMs := by
  simp only [handleChange]
  split_ifs <;> simp [startIfNeeded_accumulated]

/-- `handleKeyDown` never writes `accumulatedMs`. -/
theorem handleKeyDown_accumulated (s : SessionState) (k : String) :
    (handleKeyDown s k).accumulatedMs = s.accumulatedMs := by
  simp only [handleKeyDown]
  split_ifs <;> rfl

/-- The timer-expiry effect never writes `accumulatedMs` (it only stops
the session). -/
theorem checkTimerExpiry_accumulated (s : SessionState) (now : Int) :
    (checkTimerExpiry s now).accumulatedMs = s.accumulatedMs := by
  simp only [checkTimerExpiry]
  split_ifs <;> rfl

/-- `pauseResume` never decreases `accumulatedMs`, provided its
timestamp is not before the recorded `lastStart`. -/
theorem pauseResume_accumulated_mono (s : SessionState) (ts : Int)
    (h : ∀ t, s.lastStart = some t → t ≤ ts) :
    s.accumulatedMs ≤ (pauseResume s ts).accumulatedMs := by
  unfold pauseResume
  cases hl : s.lastStart with
  | none =>
    simp [optTruthy, hl]
    split_ifs <;> simp
  | some t =>
    have ht := h t hl
    simp only [optTruthy, hl]
    split_ifs <;> simp <;> omega

/-- C5 (amended): over any single transition whose timestamp is not
before the state's `lastResumeAt` (the clock does not run backwards),
`accumulatedActiveMs` never decreases except on `reset`, which sets it
to 0; and the only operations that write it at all are `pause`,
`toggleRunning` and `reset` — in particular `start`, `onTextChanged`,
`onKeyEvent`, `setTimerMinutes` and `checkTimerExpiry` leave it
unchanged. -/
theorem accumulated_changes_only_on_pause_or_reset (s : SessionState) (op : Op)
    (h : ∀ t ts, s.lastStart = some t → opTime op = some ts → t ≤ ts) :
    (op = Op.reset → (applyOp op s).accumulatedMs = 0) ∧
    (op ≠ Op.reset → s.accumulatedMs ≤ (applyOp op s).accumulatedMs) ∧
    (writesAccumulated op = false → (applyOp op s).accumulatedMs = s.accumulatedMs) := by
  cases op with
  | textChanged ts nt =>
    exact ⟨fun hc => Op.noConfusion hc, fun _ => le_of_eq (handleChange_accumulated s ts nt).symm,
      fun _ => handleChange_accumulated s ts nt⟩
  | keyEvent k =>
    exact ⟨fun hc => Op.noConfusion hc, fun _ => le_of_eq (handleKeyDown_accumulated s k).symm,
      fun _ => handleKeyDown_accumulated s k⟩
  | start ts =>
    exact ⟨fun hc => Op.noConfusion hc, fun _ => le_of_eq (startIfNeeded_accumulated s ts).symm,
      fun _ => startIfNeeded_accumulated s ts⟩
  | pause ts =>
    refine ⟨fun hc => Op.noConfusion hc, fun _ => ?_, fun hf => Bool.noConfusion hf⟩
    simp only [applyOp, pauseOp]
    split_ifs with hr
    · exact pauseResume_accumulated_mono s ts (fun t hl => h t ts hl rfl)
    · exact le_refl _
  | toggleRunning ts =>
    refine ⟨fun hc => Op.noConfusion hc, fun _ => ?_, fun hf => Bool.noConfusion hf⟩
    exact pauseResume_accumulated_mono s ts (fun t hl => h t ts hl rfl)
  | reset =>
    exact ⟨fun _ => rfl, fun hne => absurd rfl hne, fun hf => Bool.noConfusion hf⟩
  | setTimerMinutes n =>
    exact ⟨fun hc => Op.noConfusion hc, fun _ => le_refl _, fun _ => rfl⟩
  | checkExpiry ts =>
    exact ⟨fun hc => Op.noConfusion hc, fun _ => le_of_eq (checkTimerExpiry_accumulated s ts).symm,
      fun _ => checkTimerExpiry_accumulated s ts⟩

/-- C5 witness: pausing the concrete running session at t=10 does not
decrease its accumulated time. -/
theorem accumulated_changes_only_on_pause_or_reset_witness :
    runningDemo.accumulatedMs ≤ (applyOp (Op.pause 10) runningDemo).accumulatedMs :=
  (accumulated_changes_only_on_pause_or_reset runningDemo (Op.pause 10)
    (by
      intro t ts h1 h2
      simp [runningDemo, initState] at h1
      simp [opTime] at h2
      omega)).2.1 (by decide)

/-- C6 (amended): `handleKeyDown` acts exactly by key class — printable
keys (single character, `Enter`, `Tab`, `" "`, or the legacy
`"Spacebar"`) increment `totalKeystrokes` by one; `Backspace` increments
both `totalKeystrokes` and `backspaces` by one; all other keys leave the
state unchanged. -/
theorem handleKeyDown_matches_classification (s : SessionState) (key : String) :
    handleKeyDown s key =
      match classifyKey key with
      | KeyClass.printable => { s with totalKeystrokes := s.totalKeystrokes + 1 }
      | KeyClass.backspace =>
          { s with totalKeystrokes := s.totalKeystrokes + 1, backspaces := s.backspaces + 1 }
      | KeyClass.other => s := by
  by_cases hb : key = "Backspace"
  · subst hb; rfl
  · have hiff : ((key.length == 1 || key == "Enter" || key == "Tab" || key == " " ||
        key == "Spacebar") = true) ↔
        (key.length = 1 ∨ key = "Enter" ∨ key = "Tab" ∨ key = " " ∨ key = "Spacebar") := by
      simp only [Bool.or_eq_true, beq_iff_eq]
      tauto
    have hbne : (key == "Backspace") = false := by simpa using hb
    unfold handleKeyDown classifyKey
    rw [if_neg hb]
    by_cases hp : key.length = 1 ∨ key = "Enter" ∨ key = "Tab" ∨ key = " " ∨ key = "Spacebar"
    · rw [if_pos hp]
      simp [hiff.mpr hp, hbne]
    · rw [if_neg hp]
      have hbool := Bool.eq_false_iff.mpr (fun hc => hp (hiff.mp hc))
      simp [hbool, hbne]

/-- `startIfNeeded` preserves the lastStart-iff-running invariant. -/
theorem inv_startIfNeeded (s : SessionState) (ts : Int)
    (h : s.lastStart.isSome = s.isRunning) :
    (startIfNeeded s ts).lastStart.isSome = (startIfNeeded s ts).isRunning := by
  simp only [startIfNeeded]
  split_ifs <;> simp_all

/-- `handleChange` preserves the lastStart-iff-running invariant. -/
theorem inv_handleChange (s : SessionState) (ts : Int) (nt : String)
    (h : s.lastStart.isSome = s.isRunning) :
    (handleChange s ts nt).lastStart.isSome = (handleChange s ts nt).isRunning := by
  simp only [handleChange]
  split_ifs with h1
  · exact inv_startIfNeeded s ts h
  · exact h

/-- `handleKeyDown` preserves the lastStart-iff-running invariant. -/
theorem inv_handleKeyDown (s : SessionState) (k : String)
    (_h : s.lastStart.isSome = s.isRunning) :
    (handleKeyDown s k).lastStart.isSome = (handleKeyDown s k).isRunning := by
  simp only [handleKeyDown]
  split_ifs <;> simp_all

/-- `pauseResume` preserves the lastStart-iff-running invariant. -/
theorem inv_pauseResume (s : SessionState) (ts : Int)
    (_h : s.lastStart.isSome = s.isRunning) :
    (pauseResume s ts).lastStart.isSome = (pauseResume s ts).isRunning := by
  simp only [pauseResume]
  split_ifs <;> simp_all

/-- The timer-expiry effect preserves the lastStart-iff-running
invariant. -/
theorem inv_checkTimerExpiry (s : SessionState) (ts : Int)
    (h : s.lastStart.isSome = s.isRunning) :
    (checkTimerExpiry s ts).lastStart.isSome = (checkTimerExpiry s ts).isRunning := by
  simp only [checkTimerExpiry]
  split_ifs <;> simp_all

/-- C7: in every state reachable from the mount state by public
operations, `lastResumeAt` is set (non-null) exactly when the session is
running. -/
theorem lastResumeAt_set_iff_running (s : SessionState) (h : Reachable s) :
    s.lastStart ≠ none ↔ s.isRunning = true := by
  have key : s.lastStart.isSome = s.isRunning := by
    induction h with
    | init => rfl
    | step op hr ih =>
      cases op with
      | textChanged ts nt => exact inv_handleChange _ ts nt ih
      | keyEvent k => exact inv_handleKeyDown _ k ih
      | start ts => exact inv_startIfNeeded _ ts ih
      | pause ts =>
        simp only [applyOp, pauseOp]
        split_ifs with hr2
        · exact inv_pauseResume _ ts ih
        · exact ih
      | toggleRunning ts => exact inv_pauseResume _ ts ih
      | reset => rfl
      | setTimerMinutes n => exact ih
      | checkExpiry ts => exact inv_checkTimerExpiry _ ts ih
  rw [← key, Option.isSome_iff_ne_none]

/-- C7 witness: the invariant instantiated at the reachable state
obtained by starting the session at t=5. -/
theorem lastResumeAt_set_iff_running_witness :
    ((applyOp (Op.start 5) initState).lastStart ≠ none ↔
      (applyOp (Op.start 5) initState).isRunning = true) :=
  lastResumeAt_set_iff_running _ (Reachable.step _ Reachable.init)

/-- C8: the surfaced accuracy is 100 when no keystrokes were recorded
(whatever the text), otherwise `min(100, max(0,
characterCount/totalKeystrokes*100))` — the code's
`max(0, min(100, ·))` clamp agrees by distributivity — and it always
lies in [0, 100]. -/
theorem accuracy_is_clamped (s : SessionState) (now : Int) :
    (stats s now).accuracy =
      (if 0 < s.totalKeystrokes then
        min 100 (max 0 (((s.text.length : ℚ) / (s.totalKeystrokes : ℚ)) * 100))
      else 100) ∧
    0 ≤ (stats s now).accuracy ∧ (stats s now).accuracy ≤ 100 := by
  have hacc : (stats s now).accuracy = max 0 (min 100 (rawAccuracy s)) := rfl
  refine ⟨?_, ?_, ?_⟩
  · rw [hacc]
    unfold rawAccuracy
    split_ifs with h
    · rw [max_min_distrib_left]
      norm_num
    · norm_num
  · rw [hacc]; exact le_max_left _ _
  · rw [hacc]; exact max_le (by norm_num) (min_le_left _ _)

/-- C9: `reset` restores the session cells to their mount values while
keeping the configured timer minutes, and the statistics of the reset
state are all zero (accuracy 100) at any observation time. -/
theorem reset_restores_initial (s : SessionState) (now : Int) :
    resetAll s = { initState with timerMinutes := s.timerMinutes } ∧
    (resetAll s).timerMinutes = s.timerMinutes ∧
    stats (resetAll s) now =
      { chars := 0, words := 0, wpmGross := 0, netWpm := 0, accuracy := 100 } ∧
    activeElapsedMs (resetAll s) now = 0 := by
  have h0 : activeElapsedMs (resetAll s) now = 0 := rfl
  refine ⟨rfl, rfl, ?_, h0⟩
  have htext : (resetAll s).text = "" := rfl
  have hks : (resetAll s).totalKeystrokes = 0 := rfl
  have hwp : wordsOf ("" : String) = 0 := by decide
  have hlen : ("" : String).length = 0 := rfl
  simp only [stats, h0, htext, hks, hwp, hlen]
  norm_num [Stats.mk.injEq]

/-- The empty list has no trailing whitespace. -/
theorem noTrailWs_nil : noTrailWs ([] : List Char) := by
  intro c hc
  simp at hc

/-- The head of `dropWhile p`, when present, fails `p`. -/
theorem head?_dropWhile_not (p : Char → Bool) (l : List Char) (c : Char)
    (h : (l.dropWhile p).head? = some c) : p c = false := by
  induction l with
  | nil => simp at h
  | cons x xs ih =>
    by_cases hx : p x
    · rw [List.dropWhile_cons, if_pos hx] at h
      exact ih h
    · rw [List.dropWhile_cons, if_neg hx] at h
      simp at h
      rw [← h]
      exact Bool.eq_false_iff.mpr hx

/-- `dropWhile` keeps the last element of the list when its result is
non-empty. -/
theorem getLast?_dropWhile (p : Char → Bool) (l : List Char)
    (h : l.dropWhile p ≠ []) : (l.dropWhile p).getLast? = l.getLast? := by
  induction l with
  | nil => simp at h
  | cons x xs ih =>
    by_cases hx : p x
    · rw [List.dropWhile_cons, if_pos hx] at h ⊢
      have hxs : xs ≠ [] := by
        intro he
        rw [he] at h
        simp at h
      rw [ih h]
      cases xs with
      | nil => exact absurd rfl hxs
      | cons y ys => rw [List.getLast?_cons_cons]
    · rw [List.dropWhile_cons, if_neg hx]

/-- A trimmed string has no trailing whitespace. -/
theorem noTrailWs_jsTrim (l : List Char) : noTrailWs (jsTrim l) := by
  intro c hc
  unfold jsTrim at hc
  have hne : (l.reverse.dropWhile isJsWs).reverse.dropWhile isJsWs ≠ [] := by
    intro he
    rw [he] at hc
    simp at hc
  rw [getLast?_dropWhile _ _ hne, List.getLast?_reverse] at hc
  exact head?_dropWhile_not _ _ _ hc

/-- A trimmed string has no leading whitespace. -/
theorem head_jsTrim_not_ws (l : List Char) (c : Char)
    (h : (jsTrim l).head? = some c) : isJsWs c = false := by
  unfold jsTrim at h
  exact head?_dropWhile_not _ _ _ h

/-- On input with no trailing whitespace, the length of the JavaScript
split agrees with the token count: with the boundary flag down the split
produces one more piece than the tokens still to be opened, and with the
flag up (inside a whitespace run already emitted) exactly the token
count. -/
theorem splitAux_count (cs : List Char) :
    (∀ acc : List Char, noTrailWs cs →
      (jsSplitWsAux cs acc false).length = 1 + countTokensAux cs true) ∧
    (∀ acc : List Char, cs ≠ [] → noTrailWs cs →
      (jsSplitWsAux cs acc true).length = countTokensAux cs false) := by
  induction cs with
  | nil =>
    exact ⟨fun acc _ => rfl, fun acc hne _ => absurd rfl hne⟩
  | cons c cs ih =>
    have hstep : noTrailWs (c :: cs) → cs ≠ [] → noTrailWs cs := by
      intro hnt hne c' hc'
      apply hnt
      cases cs with
      | nil => exact absurd rfl hne
      | cons y ys => rw [List.getLast?_cons_cons]; exact hc'
    have hcsne : isJsWs c = true → noTrailWs (c :: cs) → cs ≠ [] := by
      intro hw hnt he
      subst he
      have := hnt c rfl
      rw [hw] at this
      exact Bool.noConfusion this
    have hnt_cs : noTrailWs (c :: cs) → noTrailWs cs := by
      intro hnt
      cases hcs : cs with
      | nil => exact noTrailWs_nil
      | cons y ys => exact hcs ▸ hstep hnt (by simp [hcs])
    constructor
    · intro acc hnt
      by_cases hw : isJsWs c
      · rw [show jsSplitWsAux (c :: cs) acc false =
            acc.reverse :: jsSplitWsAux cs [] true from by rw [jsSplitWsAux, if_pos hw],
          show countTokensAux (c :: cs) true = countTokensAux cs false from by
            rw [countTokensAux, if_pos hw]]
        rw [List.length_cons, (ih.2) [] (hcsne hw hnt) (hnt_cs hnt)]
        omega
      · rw [show jsSplitWsAux (c :: cs) acc false = jsSplitWsAux cs (c :: acc) false from by
            rw [jsSplitWsAux, if_neg hw],
          show countTokensAux (c :: cs) true = countTokensAux cs true from by
            rw [countTokensAux, if_neg hw]]
        exact (ih.1) (c :: acc) (hnt_cs hnt)
    · intro acc hne hnt
      by_cases hw : isJsWs c
      · rw [show jsSplitWsAux (c :: cs) acc true = jsSplitWsAux cs acc true from by
            rw [jsSplitWsAux, if_pos hw],
          show countTokensAux (c :: cs) false = countTokensAux cs false from by
            rw [countTokensAux, if_pos hw]]
        exact (ih.2) acc (hcsne hw hnt) (hnt_cs hnt)
      · rw [show jsSplitWsAux (c :: cs) acc true = jsSplitWsAux cs (c :: acc) false from by
            rw [jsSplitWsAux, if_neg hw],
          show countTokensAux (c :: cs) false = 1 + countTokensAux cs true from by
            rw [countTokensAux, if_neg hw]]
        exact (ih.1) (c :: acc) (hnt_cs hnt)

/-- C10: the word count of `stats` is 0 when the trimmed text is empty,
and otherwise the number of whitespace-delimited tokens of the trimmed
text (the code's `split(/\s+/).length` refines the spec-side maximal-run
counter `countTokens`). -/
theorem wordCount_refines_tokens (s : SessionState) (now : Int) :
    (stats s now).words =
      if jsTrim s.text.data = [] then 0 else countTokens (jsTrim s.text.data) := by
  have hw : (stats s now).words = wordsOf s.text := rfl
  rw [hw]
  simp only [wordsOf]
  by_cases hte : jsTrim s.text.data = []
  · simp [hte]
  · rw [if_neg hte, if_neg hte]
    cases hc : jsTrim s.text.data with
    | nil => exact absurd hc hte
    | cons c t =>
      have h1 : (jsTrim s.text.data).head? = some c := by rw [hc]; rfl
      have hhead : isJsWs c = false := head_jsTrim_not_ws _ _ h1
      have hnt : noTrailWs (c :: t) := hc ▸ noTrailWs_jsTrim s.text.data
      unfold jsSplitWs countTokens
      rw [(splitAux_count (c :: t)).1 [] hnt]
      rw [show countTokensAux (c :: t) true = countTokensAux t true from by
          rw [countTokensAux, if_neg (by simp [hhead])],
        show countTokensAux (c :: t) false = 1 + countTokensAux t true from by
          rw [countTokensAux, if_neg (by simp [hhead])]]

end FreeTypeWpm
